import Mathlib

/-!
Shallow embedding of the alx_travel_app listings application:
the data model from listings/models.py and the validation/serialization
layer from listings/serializers.py, together with theorems checking the
specified behaviour against the embedded code.

Modelling conventions:
* primary keys and user ids are naturals;
* calendar dates are integers (dates form a total order and only their
  order is used by the code);
* Python float arithmetic in get_average_rating is modelled exactly by
  IEEE-754 binary64 rounding of exact rationals (round to nearest, ties
  to even, 53-bit significand; overflow and subnormals cannot occur in
  the value range of this program and are not modelled);
* serializer validation failures are Except.error carrying the exact
  message string raised by the source.
-/

namespace AlxTravel

/-! ### Data model (listings/models.py) -/

/-- Review row: listing and user foreign keys, rating
(PositiveSmallIntegerField, modelled as an integer so that statements
also cover out-of-range stored values) and comment. -/
structure Review where
  listing : ℕ
  user : ℕ
  rating : ℤ
  comment : String
deriving DecidableEq

/-- Booking row: listing and user foreign keys and the booked date
range. -/
structure Booking where
  listing : ℕ
  user : ℕ
  start_date : ℤ
  end_date : ℤ
deriving DecidableEq

/-- The relational store: Listing rows (by primary key) and the Booking
and Review tables. -/
structure DB where
  listings : List ℕ
  reviews : List Review
  bookings : List Booking
deriving DecidableEq

/-- The empty store. -/
def DB.empty : DB := ⟨[], [], []⟩

/-! ### Exact model of IEEE-754 binary64 arithmetic

get_average_rating computes `sum(ratings) / count` with Python floats
and then feeds the float into Decimal. `Decimal(avg)` converts the
binary double exactly, so the model must track the double exactly:
a true division of two ints yields the binary64 value nearest the exact
rational quotient (ties to even). -/

/-- Fuel-driven floor of the base-2 logarithm of a positive natural:
log2F fuel n counts how often n can be halved before dropping below 2. -/
def log2F : ℕ → ℕ → ℕ
  | 0, _ => 0
  | fuel+1, n => if 2 ≤ n then log2F fuel (n / 2) + 1 else 0

/-- Floor of the base-2 logarithm of a positive natural. -/
def nlog2 (n : ℕ) : ℕ := log2F n n

/-- Fuel-driven ceiling of the base-2 logarithm: least k with n ≤ 2 ^ k. -/
def clog2F : ℕ → ℕ → ℕ
  | 0, _ => 0
  | fuel+1, n => if n ≤ 1 then 0 else clog2F fuel ((n + 1) / 2) + 1

/-- Ceiling of the base-2 logarithm of a positive natural. -/
def nclog2 (n : ℕ) : ℕ := clog2F n n

/-- Round a rational to the nearest integer, ties to even. -/
def rne (q : ℚ) : ℤ :=
  if q - ⌊q⌋ < 1/2 then ⌊q⌋
  else if 1/2 < q - ⌊q⌋ then ⌊q⌋ + 1
  else if ⌊q⌋ % 2 = 0 then ⌊q⌋ else ⌊q⌋ + 1

/-- Binary exponent of a positive rational: the unique e with
2 ^ e ≤ q < 2 ^ (e + 1). -/
def exp2 (q : ℚ) : ℤ :=
  if 1 ≤ q then (nlog2 ⌊q⌋₊ : ℤ) else -(nclog2 ⌈q⁻¹⌉₊ : ℤ)

/-- Multiply a rational by an integer power of two. -/
def scalePow2 (q : ℚ) (k : ℤ) : ℚ :=
  if 0 ≤ k then q * (2:ℚ) ^ k.toNat else q / (2:ℚ) ^ (-k).toNat

/-- Magnitude part of binary64 rounding: round a positive rational to
53 significant bits (round to nearest, ties to even). -/
def float64Pos (q : ℚ) : ℚ :=
  scalePow2 (rne (scalePow2 q (52 - exp2 q)) : ℚ) (exp2 q - 52)

/-- The IEEE-754 binary64 value nearest a rational (ties to even);
overflow and subnormal ranges are outside this program's values and are
not modelled. -/
def float64 (q : ℚ) : ℚ :=
  if q = 0 then 0 else if q < 0 then -float64Pos (-q) else float64Pos q

/-- Decimal.quantize to one decimal place with rounding=ROUND_HALF_UP:
nearest multiple of 1/10, ties away from zero. -/
def quantize1HalfUp (q : ℚ) : ℚ :=
  if 0 ≤ q then (⌊q * 10 + 1/2⌋ : ℚ) / 10 else -((⌊-q * 10 + 1/2⌋ : ℚ) / 10)

/-! ### ReviewSerializer (listings/serializers.py) -/

namespace ReviewSerializer

/-- Validated data for a Review write: listing_id resolved through its
source to the listing key, plus rating and comment. The user slot
mirrors the validated_data dictionary entry that create overwrites;
the serializer never lets a client populate it (user is read-only), but
the model carries it so theorems can quantify over any attempted value. -/
structure Data where
  listing : ℕ
  rating : ℤ
  comment : String
  user : ℕ := 0
deriving DecidableEq

/-- ReviewSerializer.get_rating_label: labels.get(obj.rating, "") over
the literal label dictionary. -/
def get_rating_label (rating : ℤ) : String :=
  (([(5, "Excellent"), (4, "Good"), (3, "Average"),
     (2, "Poor"), (1, "Terrible")] : List (ℤ × String)).lookup rating).getD ""

/-- ReviewSerializer.validate_rating. -/
def validate_rating (value : ℤ) : Except String ℤ :=
  if value < 1 ∨ value > 5 then
    Except.error "Rating must be between 1 and 5."
  else Except.ok value

/-- ReviewSerializer.validate: raises when
Review.objects.filter(user=user, listing=listing).exists(), where user
is the request's authenticated user. -/
def validate (db : DB) (requser : ℕ) (data : Data) : Except String Data :=
  if (db.reviews.filter fun r =>
        r.user == requser && r.listing == data.listing) ≠ [] then
    Except.error "You have already reviewed this listing."
  else Except.ok data

/-- ReviewSerializer.create: overwrites validated_data['user'] with the
request's authenticated user, then inserts the row. Returns the updated
store and the created row. -/
def create (db : DB) (requser : ℕ) (data : Data) : DB × Review :=
  let vdata : Data := { data with user := requser }
  let row : Review :=
    { listing := vdata.listing, user := vdata.user,
      rating := vdata.rating, comment := vdata.comment }
  ({ db with reviews := db.reviews ++ [row] }, row)

end ReviewSerializer

/-! ### BookingSerializer (listings/serializers.py) -/

namespace BookingSerializer

/-- Validated data for a Booking write; the dates are optional because
BookingSerializer.validate reads them with data.get, which yields None
when a date is absent (e.g. on a partial update). The user slot plays
the same role as in ReviewSerializer.Data. -/
structure Data where
  listing : ℕ
  start_date : Option ℤ
  end_date : Option ℤ
  user : ℕ := 0
deriving DecidableEq

/-- BookingSerializer.validate: date objects are always truthy and None
is falsy, so the Python guard start and end and end < start is exactly
the both-present test followed by the strict comparison. -/
def validate (data : Data) : Except String Data :=
  match data.start_date, data.end_date with
  | some s, some e =>
      if e < s then Except.error "End date must be after start date."
      else Except.ok data
  | _, _ => Except.ok data

/-- BookingSerializer.create: overwrites validated_data['user'] with the
request's authenticated user and inserts the row. The Booking columns
are NOT NULL, so a row is only produced when both dates are present
(creation through the API always supplies them). -/
def create (db : DB) (requser : ℕ) (data : Data) : DB × Option Booking :=
  let vdata : Data := { data with user := requser }
  match data.start_date, data.end_date with
  | some s, some e =>
      let row : Booking :=
        { listing := vdata.listing, user := vdata.user,
          start_date := s, end_date := e }
      ({ db with bookings := db.bookings ++ [row] }, some row)
  | _, _ => (db, none)

end BookingSerializer

/-! ### ListingSerializer (listings/serializers.py) -/

namespace ListingSerializer

/-- Reviews of a listing: obj.reviews.all() through the related_name on
Review.listing. -/
def listing_reviews (db : DB) (lid : ℕ) : List Review :=
  db.reviews.filter fun r => r.listing == lid

/-- reviews_count field: IntegerField with source reviews.count. -/
def reviews_count (reviews : List Review) : ℕ := reviews.length

/-- ListingSerializer.get_average_rating: None when no review exists;
otherwise sum(ratings) / count as a Python float (one binary64
rounding of the exact quotient), converted exactly to Decimal,
quantized to one decimal place with ROUND_HALF_UP, and converted back
to a float. -/
def get_average_rating (reviews : List Review) : Option ℚ :=
  if reviews = [] then none
  else
    some (float64 (quantize1HalfUp
      (float64 (((reviews.map Review.rating).sum : ℚ) / (reviews.length : ℚ)))))

/-- Specified average rating (spec section 4.2): None without reviews,
otherwise the exact arithmetic mean of the rating values rounded to one
decimal place with round-half-up. Stated from the spec's words, to be
compared with get_average_rating. -/
def average_rating_of_mean (reviews : List Review) : Option ℚ :=
  if reviews = [] then none
  else some (quantize1HalfUp (((reviews.map Review.rating).sum : ℚ) / (reviews.length : ℚ)))

end ListingSerializer

/-! ### API-level operations

Creation through the API runs the serializer validation chain
(foreign-key resolution of listing_id against the Listing queryset,
field validators, object-level validate) and only on success performs
the insert with the request user; a validation failure leaves the store
unchanged. Deleting a Listing cascades (on_delete=models.CASCADE on
Booking.listing and Review.listing). -/

/-- One API create request. -/
inductive Op where
  | createListing (lid : ℕ)
  | createReview (requser : ℕ) (listing_id : ℕ) (rating : ℤ) (comment : String)
  | createBooking (requser : ℕ) (listing_id : ℕ) (start_date end_date : ℤ)

/-- Apply one create request to the store. -/
def applyOp (db : DB) : Op → DB
  | .createListing lid => { db with listings := db.listings ++ [lid] }
  | .createReview u lid rating comment =>
      if lid ∈ db.listings then
        match ReviewSerializer.validate_rating rating with
        | .error _ => db
        | .ok r =>
          match ReviewSerializer.validate db u
              { listing := lid, rating := r, comment := comment } with
          | .error _ => db
          | .ok d => (ReviewSerializer.create db u d).1
      else db
  | .createBooking u lid s e =>
      if lid ∈ db.listings then
        match BookingSerializer.validate
            { listing := lid, start_date := some s, end_date := some e } with
        | .error _ => db
        | .ok d => (BookingSerializer.create db u d).1
      else db

/-- Run a sequence of create requests from the empty store. -/
def runOps (ops : List Op) : DB := ops.foldl applyOp DB.empty

/-- At most one Review per (user, listing) pair. -/
def ReviewKeyUnique (l : List Review) : Prop :=
  List.Pairwise (fun a b => ¬(a.user = b.user ∧ a.listing = b.listing)) l

/-- Cascade deletion of a Listing: the listing row disappears and, by
on_delete=models.CASCADE on both foreign keys, so do its Bookings and
Reviews; unrelated rows stay. -/
def deleteListing (db : DB) (lid : ℕ) : DB :=
  { listings := db.listings.filter fun x => x != lid,
    reviews := db.reviews.filter fun r => r.listing != lid,
    bookings := db.bookings.filter fun b => b.listing != lid }

/-! ### Concrete stores and review lists used by closed theorems -/

/-- Concrete store exercising the cascade: listing 1 and listing 2 each
hold one review and one booking. -/
def cascadeDB : DB :=
  { listings := [1, 2],
    reviews := [{ listing := 1, user := 4, rating := 5, comment := "" },
                { listing := 2, user := 4, rating := 4, comment := "" }],
    bookings := [{ listing := 1, user := 4, start_date := 0, end_date := 1 },
                 { listing := 2, user := 4, start_date := 0, end_date := 1 }] }

/-- A listing's reviews with ratings 4, 5, 3. -/
def reviews453 : List Review :=
  [{ listing := 1, user := 1, rating := 4, comment := "" },
   { listing := 1, user := 2, rating := 5, comment := "" },
   { listing := 1, user := 3, rating := 3, comment := "" }]

/-- A listing's reviews with ratings 5, 4. -/
def reviews54 : List Review :=
  [{ listing := 1, user := 1, rating := 5, comment := "" },
   { listing := 1, user := 2, rating := 4, comment := "" }]

/-- Twenty reviews of one listing, seventeen rated 1 and three rated 2:
the rating sum is 23, so the exact mean is 23/20 = 1.15, a round-half-up
tie at the second decimal that the binary64 value of 23/20 sits strictly
below. -/
def badReviews : List Review :=
  [{ listing := 1, user := 1, rating := 1, comment := "" },
   { listing := 1, user := 2, rating := 1, comment := "" },
   { listing := 1, user := 3, rating := 1, comment := "" },
   { listing := 1, user := 4, rating := 1, comment := "" },
   { listing := 1, user := 5, rating := 1, comment := "" },
   { listing := 1, user := 6, rating := 1, comment := "" },
   { listing := 1, user := 7, rating := 1, comment := "" },
   { listing := 1, user := 8, rating := 1, comment := "" },
   { listing := 1, user := 9, rating := 1, comment := "" },
   { listing := 1, user := 10, rating := 1, comment := "" },
   { listing := 1, user := 11, rating := 1, comment := "" },
   { listing := 1, user := 12, rating := 1, comment := "" },
   { listing := 1, user := 13, rating := 1, comment := "" },
   { listing := 1, user := 14, rating := 1, comment := "" },
   { listing := 1, user := 15, rating := 1, comment := "" },
   { listing := 1, user := 16, rating := 1, comment := "" },
   { listing := 1, user := 17, rating := 1, comment := "" },
   { listing := 1, user := 18, rating := 2, comment := "" },
   { listing := 1, user := 19, rating := 2, comment := "" },
   { listing := 1, user := 20, rating := 2, comment := "" }]

end AlxTravel

namespace AlxTravel

/-! ### Helper lemmas -/

/-- The duplicate-review filter is nonempty exactly when a review by the
request user for the listing exists. -/
lemma review_filter_ne_nil_iff (db : DB) (requser : ℕ) (lid : ℕ) :
    (db.reviews.filter fun r => r.user == requser && r.listing == lid) ≠ [] ↔
      ∃ r ∈ db.reviews, r.user = requser ∧ r.listing = lid := by
  rw [Ne, List.filter_eq_nil_iff]
  push_neg
  simp only [Bool.and_eq_true, beq_iff_eq]

/-- C2: ReviewSerializer.validate fails with the duplicate-review
message exactly when a Review by the request's authenticated user for
the referenced listing already exists, and passes (returning the data
unchanged) otherwise. -/
theorem review_duplicate_validation_iff
    (db : DB) (requser : ℕ) (data : ReviewSerializer.Data) :
    (ReviewSerializer.validate db requser data =
        Except.error "You have already reviewed this listing." ↔
      ∃ r ∈ db.reviews, r.user = requser ∧ r.listing = data.listing)
    ∧ (ReviewSerializer.validate db requser data = Except.ok data ↔
      ¬∃ r ∈ db.reviews, r.user = requser ∧ r.listing = data.listing) := by
  have key := review_filter_ne_nil_iff db requser data.listing
  unfold ReviewSerializer.validate
  split
  · rename_i h
    exact ⟨iff_of_true rfl (key.mp h),
           iff_of_false (by simp) (not_not_intro (key.mp h))⟩
  · rename_i h
    have h' : ¬∃ r ∈ db.reviews, r.user = requser ∧ r.listing = data.listing :=
      fun he => h (key.mpr he)
    exact ⟨iff_of_false (by simp) h', iff_of_true rfl h'⟩

/-- C3: with both dates present, BookingSerializer.validate fails with
the date-range message exactly when end_date < start_date, and accepts
exactly when start_date ≤ end_date; equal dates are therefore
accepted. -/
theorem booking_date_validation_iff (lid u : ℕ) (s e : ℤ) :
    (BookingSerializer.validate ⟨lid, some s, some e, u⟩ =
        Except.error "End date must be after start date." ↔ e < s)
    ∧ (BookingSerializer.validate ⟨lid, some s, some e, u⟩ =
        Except.ok ⟨lid, some s, some e, u⟩ ↔ s ≤ e) := by
  have hval : BookingSerializer.validate ⟨lid, some s, some e, u⟩ =
      if e < s then Except.error "End date must be after start date."
      else Except.ok ⟨lid, some s, some e, u⟩ := rfl
  rw [hval]
  by_cases h : e < s
  · rw [if_pos h]
    exact ⟨iff_of_true rfl h, iff_of_false (by simp) (by omega)⟩
  · rw [if_neg h]
    exact ⟨iff_of_false (by simp) h, iff_of_true rfl (by omega)⟩

/-- C4: validate_rating rejects with the bounds message exactly when the
rating lies outside 1..5, and passes every rating inside the bounds. -/
theorem rating_bounds_validation_iff (r : ℤ) :
    (ReviewSerializer.validate_rating r =
        Except.error "Rating must be between 1 and 5." ↔ r < 1 ∨ r > 5)
    ∧ (ReviewSerializer.validate_rating r = Except.ok r ↔ 1 ≤ r ∧ r ≤ 5) := by
  unfold ReviewSerializer.validate_rating
  by_cases h : r < 1 ∨ r > 5
  · rw [if_pos h]
    exact ⟨iff_of_true rfl h, iff_of_false (by simp) (by omega)⟩
  · rw [if_neg h]
    exact ⟨iff_of_false (by simp) h, iff_of_true rfl (by omega)⟩

/-- C5: a created Review row carries the request's authenticated user,
and so does any created Booking row, whatever user value the validated
data carried. -/
theorem create_sets_authenticated_user
    (db : DB) (requser : ℕ) (rdata : ReviewSerializer.Data)
    (bdata : BookingSerializer.Data) (row : Booking) :
    (ReviewSerializer.create db requser rdata).2.user = requser
    ∧ ((BookingSerializer.create db requser bdata).2 = some row →
        row.user = requser) := by
  refine ⟨rfl, ?_⟩
  cases hs : bdata.start_date <;> cases he : bdata.end_date <;>
    simp [BookingSerializer.create, hs, he]
  rintro rfl
  rfl

/-- Witness for C5 at a concrete store, request user and payloads. -/
theorem create_sets_authenticated_user_witness :
    (ReviewSerializer.create DB.empty 7
        { listing := 1, rating := 5, comment := "" }).2.user = 7
    ∧ ({ listing := 1, user := 7, start_date := 3, end_date := 4 } :
        Booking).user = 7 :=
  ⟨(create_sets_authenticated_user DB.empty 7
      { listing := 1, rating := 5, comment := "" }
      { listing := 1, start_date := some 3, end_date := some 4 }
      { listing := 1, user := 7, start_date := 3, end_date := 4 }).1,
   (create_sets_authenticated_user DB.empty 7
      { listing := 1, rating := 5, comment := "" }
      { listing := 1, start_date := some 3, end_date := some 4 }
      { listing := 1, user := 7, start_date := 3, end_date := 4 }).2 rfl⟩

/-- C9: the derived rating_label realizes the literal label mapping, and
every rating outside 1..5 yields the empty string. -/
theorem rating_label_mapping (r : ℤ) :
    ReviewSerializer.get_rating_label 5 = "Excellent"
    ∧ ReviewSerializer.get_rating_label 4 = "Good"
    ∧ ReviewSerializer.get_rating_label 3 = "Average"
    ∧ ReviewSerializer.get_rating_label 2 = "Poor"
    ∧ ReviewSerializer.get_rating_label 1 = "Terrible"
    ∧ (r < 1 ∨ 5 < r → ReviewSerializer.get_rating_label r = "") := by
  refine ⟨rfl, rfl, rfl, rfl, rfl, fun h => ?_⟩
  have e5 : (r == (5:ℤ)) = false := beq_eq_false_iff_ne.mpr (by omega)
  have e4 : (r == (4:ℤ)) = false := beq_eq_false_iff_ne.mpr (by omega)
  have e3 : (r == (3:ℤ)) = false := beq_eq_false_iff_ne.mpr (by omega)
  have e2 : (r == (2:ℤ)) = false := beq_eq_false_iff_ne.mpr (by omega)
  have e1 : (r == (1:ℤ)) = false := beq_eq_false_iff_ne.mpr (by omega)
  simp [ReviewSerializer.get_rating_label, List.lookup, e5, e4, e3, e2, e1]

/-- Witness for C9: both out-of-range ratings named by the spec map to
the empty string. -/
theorem rating_label_mapping_witness :
    ReviewSerializer.get_rating_label 6 = ""
    ∧ ReviewSerializer.get_rating_label 0 = "" :=
  ⟨(rating_label_mapping 6).2.2.2.2.2 (Or.inr (by decide)),
   (rating_label_mapping 0).2.2.2.2.2 (Or.inl (by decide))⟩

/-- C10: the booking cross-field validator accepts whenever either date
is absent, and its error can only arise with both dates present
and carries the date-range message. -/
theorem booking_validation_requires_both_dates (d : BookingSerializer.Data) :
    (d.start_date = none ∨ d.end_date = none →
      BookingSerializer.validate d = Except.ok d)
    ∧ (∀ m, BookingSerializer.validate d = Except.error m →
        (∃ s, d.start_date = some s) ∧ (∃ e, d.end_date = some e) ∧
          m = "End date must be after start date.") := by
  cases hs : d.start_date with
  | none =>
      have hval : BookingSerializer.validate d = Except.ok d := by
        unfold BookingSerializer.validate
        rw [hs]
      exact ⟨fun _ => hval, fun m h => absurd (hval ▸ h) (by simp)⟩
  | some sv =>
      cases he : d.end_date with
      | none =>
          have hval : BookingSerializer.validate d = Except.ok d := by
            unfold BookingSerializer.validate
            rw [hs, he]
          exact ⟨fun _ => hval, fun m h => absurd (hval ▸ h) (by simp)⟩
      | some ev =>
          have hval : BookingSerializer.validate d =
              if ev < sv then Except.error "End date must be after start date."
              else Except.ok d := by
            unfold BookingSerializer.validate
            rw [hs, he]
          constructor
          · rintro (h | h) <;> exact Option.noConfusion h
          · intro m h
            rw [hval] at h
            by_cases hlt : ev < sv
            · rw [if_pos hlt] at h
              exact ⟨⟨sv, rfl⟩, ⟨ev, rfl⟩, (Except.error.inj h).symm⟩
            · rw [if_neg hlt] at h
              exact absurd h (by simp)

/-- Witness for C10: a payload missing its end date passes, and the
one documented failing payload fails with both dates present. -/
theorem booking_validation_requires_both_dates_witness :
    BookingSerializer.validate
        { listing := 1, start_date := some 10, end_date := none } =
      Except.ok { listing := 1, start_date := some 10, end_date := none }
    ∧ ((∃ s, ({ listing := 1, start_date := some 10, end_date := some 9 } :
          BookingSerializer.Data).start_date = some s)
       ∧ (∃ e, ({ listing := 1, start_date := some 10, end_date := some 9 } :
          BookingSerializer.Data).end_date = some e)
       ∧ "End date must be after start date." =
          "End date must be after start date.") :=
  ⟨(booking_validation_requires_both_dates
      { listing := 1, start_date := some 10, end_date := none }).1 (Or.inr rfl),
   (booking_validation_requires_both_dates
      { listing := 1, start_date := some 10, end_date := some 9 }).2
      "End date must be after start date." rfl⟩

/-- C7: deleting a Listing removes it and cascades to every Booking and
Review referencing it, while rows of other listings survive. -/
theorem delete_listing_cascades (db : DB) (lid : ℕ) :
    lid ∉ (deleteListing db lid).listings
    ∧ (∀ b ∈ (deleteListing db lid).bookings, b.listing ≠ lid)
    ∧ (∀ r ∈ (deleteListing db lid).reviews, r.listing ≠ lid)
    ∧ (∀ b ∈ db.bookings, b.listing ≠ lid → b ∈ (deleteListing db lid).bookings)
    ∧ (∀ r ∈ db.reviews, r.listing ≠ lid → r ∈ (deleteListing db lid).reviews) := by
  refine ⟨?_, ?_, ?_, ?_, ?_⟩ <;>
    simp [deleteListing, List.mem_filter, bne_iff_ne] <;>
    tauto

/-- Witness for C7: after deleting listing 1 from the concrete store,
listing 1 is gone and listing 2's booking and review survive. -/
theorem delete_listing_cascades_witness :
    (1 : ℕ) ∉ (deleteListing cascadeDB 1).listings
    ∧ ({ listing := 2, user := 4, start_date := 0, end_date := 1 } : Booking) ∈
        (deleteListing cascadeDB 1).bookings
    ∧ ({ listing := 2, user := 4, rating := 4, comment := "" } : Review) ∈
        (deleteListing cascadeDB 1).reviews :=
  ⟨(delete_listing_cascades cascadeDB 1).1,
   (delete_listing_cascades cascadeDB 1).2.2.2.1 _
     (List.Mem.tail _ (List.Mem.head _)) (by decide),
   (delete_listing_cascades cascadeDB 1).2.2.2.2 _
     (List.Mem.tail _ (List.Mem.head _)) (by decide)⟩

/-- A successful object-level review validation returns its input and
guarantees that no review by the request user for that listing is on
file. -/
lemma validate_ok_no_dup {db : DB} {u : ℕ} {data d : ReviewSerializer.Data}
    (h : ReviewSerializer.validate db u data = Except.ok d) :
    d = data ∧ ∀ r ∈ db.reviews, ¬(r.user = u ∧ r.listing = data.listing) := by
  unfold ReviewSerializer.validate at h
  split at h
  · exact absurd h (by simp)
  · rename_i hc
    refine ⟨(Except.ok.inj h).symm, fun r hr hcontra => ?_⟩
    have hnil := List.filter_eq_nil_iff.mp (not_not.mp hc)
    exact hnil r hr (by simp [hcontra.1, hcontra.2])

/-- Booking creation never touches the Review table. -/
lemma bookingCreate_reviews (db : DB) (u : ℕ) (d : BookingSerializer.Data) :
    ((BookingSerializer.create db u d).1).reviews = db.reviews := by
  cases hs : d.start_date <;> cases he : d.end_date <;>
    simp [BookingSerializer.create, hs, he]

/-- Each API create preserves uniqueness of the (user, listing) review
key: the only operation inserting a review first passes
ReviewSerializer.validate, which rules out an existing row for the same
pair, and inserts with exactly the checked user and listing. -/
lemma reviewKeyUnique_applyOp (db : DB) (op : Op)
    (h : ReviewKeyUnique db.reviews) :
    ReviewKeyUnique (applyOp db op).reviews := by
  cases op with
  | createListing lid => exact h
  | createBooking u lid s e =>
      by_cases hmem : lid ∈ db.listings
      · cases hv : BookingSerializer.validate
            { listing := lid, start_date := some s, end_date := some e } with
        | error m =>
            have heq : applyOp db (Op.createBooking u lid s e) = db := by
              simp [applyOp, hmem, hv]
            rw [heq]; exact h
        | ok d =>
            have heq : applyOp db (Op.createBooking u lid s e) =
                (BookingSerializer.create db u d).1 := by
              simp [applyOp, hmem, hv]
            rw [heq, bookingCreate_reviews]; exact h
      · have heq : applyOp db (Op.createBooking u lid s e) = db := by
          simp [applyOp, hmem]
        rw [heq]; exact h
  | createReview u lid rating comment =>
      by_cases hmem : lid ∈ db.listings
      · cases hvr : ReviewSerializer.validate_rating rating with
        | error m =>
            have heq : applyOp db (Op.createReview u lid rating comment) = db := by
              simp [applyOp, hmem, hvr]
            rw [heq]; exact h
        | ok r =>
            cases hv : ReviewSerializer.validate db u
                { listing := lid, rating := r, comment := comment } with
            | error m =>
                have heq : applyOp db (Op.createReview u lid rating comment) = db := by
                  simp [applyOp, hmem, hvr, hv]
                rw [heq]; exact h
            | ok d =>
                have heq : applyOp db (Op.createReview u lid rating comment) =
                    (ReviewSerializer.create db u d).1 := by
                  simp [applyOp, hmem, hvr, hv]
                rw [heq]
                obtain ⟨rfl, hnd⟩ := validate_ok_no_dup hv
                show ReviewKeyUnique (db.reviews ++
                  [{ listing := lid, user := u, rating := r,
                     comment := comment }])
                unfold ReviewKeyUnique
                rw [List.pairwise_append]
                refine ⟨h, List.pairwise_singleton _ _, ?_⟩
                intro a ha b hb
                obtain rfl := List.mem_singleton.mp hb
                exact fun hc => hnd a ha ⟨hc.1, hc.2⟩
      · have heq : applyOp db (Op.createReview u lid rating comment) = db := by
          simp [applyOp, hmem]
        rw [heq]; exact h

/-- Folding any list of API creates preserves the review-key
invariant. -/
lemma reviewKeyUnique_foldl (ops : List Op) :
    ∀ db, ReviewKeyUnique db.reviews →
      ReviewKeyUnique (ops.foldl applyOp db).reviews := by
  induction ops with
  | nil => exact fun _ h => h
  | cons op rest ih => exact fun db h => ih _ (reviewKeyUnique_applyOp db op h)

/-- C6: every store reachable from empty by API creates (each preceded
by its validation chain) holds at most one Review per (user, listing)
pair. -/
theorem review_unique_per_user_listing_invariant (ops : List Op) :
    ReviewKeyUnique (runOps ops).reviews :=
  reviewKeyUnique_foldl ops DB.empty List.Pairwise.nil

/-! ### Evaluation lemmas for the binary64 model -/

/-- Evaluate rne when the fractional part is below one half. -/
lemma rne_eval_lo (q : ℚ) (n : ℤ) (h1 : (n:ℚ) ≤ q) (h2 : q < n + 1/2) :
    rne q = n := by
  have hf : ⌊q⌋ = n := Int.floor_eq_iff.mpr ⟨h1, by linarith⟩
  unfold rne
  rw [hf, if_pos (by linarith)]

/-- Evaluate rne when the fractional part is above one half. -/
lemma rne_eval_hi (q : ℚ) (n : ℤ) (h1 : (n:ℚ) + 1/2 < q) (h2 : q < n + 1) :
    rne q = n + 1 := by
  have hf : ⌊q⌋ = n := Int.floor_eq_iff.mpr ⟨by linarith, by linarith⟩
  unfold rne
  rw [hf, if_neg (by linarith), if_pos (by linarith)]

/-- Evaluate exp2 on a rational at least one. -/
lemma exp2_eval (q : ℚ) (fl e : ℕ) (h1 : 1 ≤ q) (hfl : ⌊q⌋₊ = fl)
    (he : nlog2 fl = e) : exp2 q = e := by
  unfold exp2
  rw [if_pos h1, hfl, he]

/-- Scaling by a nonnegative power of two multiplies. -/
lemma scalePow2_natCast (q : ℚ) (k : ℕ) : scalePow2 q (k:ℤ) = q * 2 ^ k := by
  unfold scalePow2
  rw [if_pos (by positivity), Int.toNat_natCast]

/-- Scaling by a negative power of two divides. -/
lemma scalePow2_neg_natCast (q : ℚ) (k : ℕ) :
    scalePow2 q (-(k:ℤ)) = q / 2 ^ k := by
  unfold scalePow2
  by_cases hk : k = 0
  · subst hk
    simp
  · rw [if_neg (by omega), neg_neg, Int.toNat_natCast]

/-- Evaluate float64 on a positive rational from its binary exponent and
rounded significand. -/
lemma float64_eval (q : ℚ) (e m : ℤ) (k : ℕ) (h0 : 0 < q)
    (hexp : exp2 q = e) (hk : 52 - e = (k:ℤ))
    (hm : rne (q * 2 ^ k) = m) :
    float64 q = (m : ℚ) / 2 ^ k := by
  unfold float64
  rw [if_neg (by positivity), if_neg (not_lt.mpr h0.le)]
  unfold float64Pos
  rw [hexp, hk, show e - 52 = -(k:ℤ) by omega,
    scalePow2_natCast, hm, scalePow2_neg_natCast]

/-- Evaluate quantize1HalfUp on a nonnegative rational. -/
lemma quantize1HalfUp_eval (q : ℚ) (n : ℤ) (h0 : 0 ≤ q)
    (h1 : (n:ℚ) ≤ q * 10 + 1/2) (h2 : q * 10 + 1/2 < n + 1) :
    quantize1HalfUp q = (n:ℚ) / 10 := by
  unfold quantize1HalfUp
  rw [if_pos h0, Int.floor_eq_iff.mpr ⟨h1, by linarith⟩]

/-- Binary64 has no effect on 4: the mean of ratings 4, 5, 3 is exact. -/
lemma float64_four : float64 (4:ℚ) = 4 := by
  have hexp : exp2 (4:ℚ) = 2 :=
    exp2_eval 4 4 2 (by norm_num)
      (by rw [Nat.floor_eq_iff] <;> norm_num) (by decide)
  rw [float64_eval 4 2 4503599627370496 50 (by norm_num) hexp (by norm_num)
    (by refine rne_eval_lo _ _ ?_ ?_ <;> norm_num)]
  norm_num

/-- Binary64 has no effect on 9/2: the mean of ratings 5, 4 is dyadic. -/
lemma float64_nine_halves : float64 ((9:ℚ)/2) = 9/2 := by
  have hexp : exp2 ((9:ℚ)/2) = 2 :=
    exp2_eval (9/2) 4 2 (by norm_num)
      (by rw [Nat.floor_eq_iff] <;> norm_num) (by decide)
  rw [float64_eval (9/2) 2 5066549580791808 50 (by norm_num) hexp
    (by norm_num) (by refine rne_eval_lo _ _ ?_ ?_ <;> norm_num)]
  norm_num

/-- Quantizing 4 to one decimal place leaves 4. -/
lemma quantize1HalfUp_four : quantize1HalfUp (4:ℚ) = 4 := by
  rw [quantize1HalfUp_eval 4 40 (by norm_num) (by norm_num) (by norm_num)]
  norm_num

/-- Quantizing 9/2 to one decimal place leaves 9/2. -/
lemma quantize1HalfUp_nine_halves : quantize1HalfUp ((9:ℚ)/2) = 9/2 := by
  rw [quantize1HalfUp_eval (9/2) 45 (by norm_num) (by norm_num) (by norm_num)]
  norm_num

/-- C8: the serialized average_rating is 4.0 for ratings 4, 5, 3 and
4.5 for ratings 5, 4; with zero reviews it is None and reviews_count
is 0. -/
theorem average_rating_examples :
    ListingSerializer.get_average_rating reviews453 = some 4
    ∧ ListingSerializer.get_average_rating reviews54 = some ((9:ℚ)/2)
    ∧ ListingSerializer.get_average_rating [] = none
    ∧ ListingSerializer.reviews_count [] = 0 := by
  refine ⟨?_, ?_, rfl, rfl⟩
  · have hmean : (((reviews453.map Review.rating).sum : ℤ) : ℚ) /
        ((reviews453.length : ℕ) : ℚ) = 4 := by
      rw [show ((reviews453.map Review.rating).sum : ℤ) = 12 from rfl,
        show reviews453.length = 3 from rfl]
      norm_num
    unfold ListingSerializer.get_average_rating
    rw [if_neg (by simp [reviews453]), hmean, float64_four,
      quantize1HalfUp_four, float64_four]
  · have hmean : (((reviews54.map Review.rating).sum : ℤ) : ℚ) /
        ((reviews54.length : ℕ) : ℚ) = 9/2 := by
      rw [show ((reviews54.map Review.rating).sum : ℤ) = 9 from rfl,
        show reviews54.length = 2 from rfl]
      norm_num
    unfold ListingSerializer.get_average_rating
    rw [if_neg (by simp [reviews54]), hmean, float64_nine_halves,
      quantize1HalfUp_nine_halves, float64_nine_halves]

/-- C1: the code does not round the exact mean half-up. On the twenty
reviews of badReviews the exact mean is 1.15, whose round-half-up to
one decimal is 1.2; but get_average_rating quantizes the binary64
value of 23/20, which lies strictly below the tie, so the serialized
value is (the binary64 value of) 1.1, strictly below 1.15. -/
theorem average_rating_half_up_code_bug :
    ListingSerializer.average_rating_of_mean badReviews = some ((6:ℚ)/5)
    ∧ ListingSerializer.get_average_rating badReviews =
        some ((4953959590107546:ℚ)/4503599627370496)
    ∧ ((4953959590107546:ℚ)/4503599627370496) < 23/20 := by
  have hsum : ((badReviews.map Review.rating).sum : ℤ) = 23 := rfl
  have hlen : badReviews.length = 20 := rfl
  have hmean : (((badReviews.map Review.rating).sum : ℤ) : ℚ) /
      ((badReviews.length : ℕ) : ℚ) = 23/20 := by
    rw [hsum, hlen]
    norm_num
  have hexp2320 : exp2 ((23:ℚ)/20) = 0 :=
    exp2_eval (23/20) 1 0 (by norm_num)
      (by rw [Nat.floor_eq_iff] <;> norm_num) (by decide)
  have hf2320 : float64 ((23:ℚ)/20) = (5179139571476070:ℚ)/2^52 := by
    rw [float64_eval (23/20) 0 5179139571476070 52 (by norm_num) hexp2320
      (by norm_num) (by refine rne_eval_lo _ _ ?_ ?_ <;> norm_num)]
    norm_num
  have hq : quantize1HalfUp ((5179139571476070:ℚ)/2^52) = (11:ℚ)/10 := by
    rw [quantize1HalfUp_eval _ 11 (by norm_num) (by norm_num) (by norm_num)]
    norm_num
  have hexp1110 : exp2 ((11:ℚ)/10) = 0 :=
    exp2_eval (11/10) 1 0 (by norm_num)
      (by rw [Nat.floor_eq_iff] <;> norm_num) (by decide)
  have hf1110 : float64 ((11:ℚ)/10) = (4953959590107546:ℚ)/2^52 := by
    rw [float64_eval (11/10) 0 4953959590107546 52 (by norm_num) hexp1110
      (by norm_num)
      ((rne_eval_hi _ 4953959590107545 (by norm_num) (by norm_num)).trans
        (by norm_num))]
    norm_num
  refine ⟨?_, ?_, by norm_num⟩
  · unfold ListingSerializer.average_rating_of_mean
    rw [if_neg (by simp [badReviews]), hmean,
      quantize1HalfUp_eval (23/20) 12 (by norm_num) (by norm_num) (by norm_num)]
    norm_num
  · unfold ListingSerializer.get_average_rating
    rw [if_neg (by simp [badReviews]), hmean, hf2320, hq, hf1110]
    norm_num [Option.some.injEq]

end AlxTravel
